import Mathlib

/-!
Verification development for the workflow graph normalization and
construction engine of the n8n-workflow-builder repository.

The embedding covers:
* `src/utils/positioning.ts` — the layout engine (`calculateNextPosition`,
  `calculateBranchPosition`, spacing constants);
* `src/utils/validation.ts` — `validateWorkflowSpec`, the graph normalizer
  (two historical variants exist in the repository; both are embedded, the
  newer one as `validateWorkflowSpec`, the older one — the variant with the
  `{ main: ... }` connection shape and the heuristic source-node inference —
  as `validateWorkflowSpec2`);
* `src/services/workflowBuilder.ts` — the `WorkflowBuilder` class, embedded
  as a state record with one function per method.

The normalizer takes untyped (`any`) JavaScript values, so its embedding
works over `Value`, a JSON-like model of JavaScript runtime values, with
explicit models of `typeof`, truthiness, property access (including the
TypeError raised by property access on `null`/`undefined`) and the
`a || b` operator.  JavaScript numbers are modelled as integers: every
numeric value appearing in the code under study (coordinates, port
indices, type versions) is integral.  Thrown exceptions are modelled with
`Except`: `VError.invalidInput` models a thrown `McpError(InvalidParams, …)`
and `VError.typeError` models a built-in JavaScript `TypeError`.
In-place mutation performed by the normalizer on its argument is modelled
by returning, alongside the produced spec, the value the input object
holds after the call (`NormResult.inputAfter`).
-/

namespace N8n

/-- Model of a JavaScript runtime value (the normalizer's inputs are typed
`any` in the source).  Object fields are an insertion-ordered association
list, as JavaScript string-keyed objects are.  Numbers are modelled as
integers (all numeric values used by the code under study are integral). -/
inductive Value where
  | undefined
  | null
  | bool (b : Bool)
  | num (n : Int)
  | str (s : String)
  | arr (xs : List Value)
  | obj (fs : List (String × Value))

/-- `typeof v` for the modelled values.  Note the JavaScript quirk
`typeof null === "object"`, which the code under study inherits. -/
def jsTypeof : Value → String
  | .undefined => "undefined"
  | .null => "object"
  | .bool _ => "boolean"
  | .num _ => "number"
  | .str _ => "string"
  | .arr _ => "object"
  | .obj _ => "object"

/-- JavaScript truthiness of a value (`NaN` does not arise in the integer
model of numbers). -/
def truthy : Value → Bool
  | .undefined => false
  | .null => false
  | .bool b => b
  | .num n => n != 0
  | .str s => s ≠ ""
  | .arr _ => true
  | .obj _ => true

/-- `Array.isArray`. -/
def isArray : Value → Bool
  | .arr _ => true
  | _ => false

def Value.isStr : Value → Bool
  | .str _ => true
  | _ => false

def Value.asStr : Value → String
  | .str s => s
  | _ => ""

/-- The JavaScript `a || b` operator. -/
def jsOr (a b : Value) : Value := if truthy a then a else b

/-- Strict equality `===` restricted to the comparisons the code performs
(a node id/name against a connection endpoint reference).  Two distinct
objects or arrays compare unequal under `===`; the code never compares an
object with itself, so object operands are modelled as never equal. -/
def strictEq : Value → Value → Bool
  | .undefined, .undefined => true
  | .null, .null => true
  | .bool a, .bool b => a == b
  | .num a, .num b => a == b
  | .str a, .str b => a == b
  | _, _ => false

/-- Property read `v.k` on a receiver already known to be neither `null`
nor `undefined` (named properties of arrays and of boxed primitives read
as `undefined`; the code never reads `length` through this path). -/
def getF : Value → String → Value
  | .obj fs, k => (fs.lookup k).getD .undefined
  | _, _ => .undefined

/-- Errors thrown by the normalizer: `invalidInput` models a thrown
`McpError(ErrorCode.InvalidParams, msg)`, `typeError` a built-in
JavaScript `TypeError` (property access on `null`/`undefined`, or a
strict-mode write/indexing misuse). -/
inductive VError where
  | invalidInput (msg : String)
  | typeError
deriving DecidableEq, Repr

/-- General property read `v.k`: throws a `TypeError` when the receiver
is `null` or `undefined`, otherwise reads like `getF`. -/
def getField (v : Value) (k : String) : Except VError Value :=
  match v with
  | .undefined => .error .typeError
  | .null => .error .typeError
  | _ => .ok (getF v k)

/-- Field lookup on an object value (used only in theorem statements). -/
def objLookup : Value → String → Option Value
  | .obj fs, k => fs.lookup k
  | _, _ => none

/-- Two-level field lookup (used only in theorem statements). -/
def objLookup2 (v : Value) (k1 k2 : String) : Option Value :=
  (objLookup v k1).bind (fun w => objLookup w k2)

/-- The keys of an object value, in order (used only in theorem
statements). -/
def objKeys : Value → List String
  | .obj fs => fs.map (fun p => p.1)
  | _ => []

/-- JavaScript property assignment `o.k = v` on a plain object: an
existing key is updated in place keeping its position, a new key is
appended at the end. -/
def setKey {α : Type} (fs : List (String × α)) (k : String) (v : α) :
    List (String × α) :=
  if (fs.lookup k).isSome then
    fs.map (fun p => if p.1 == k then (k, v) else p)
  else
    fs ++ [(k, v)]

/-- Rendering of a value by JavaScript string interpolation, used for the
`console.warn` diagnostic text (objects render as "[object Object]",
arrays as their comma-joined elements). -/
def vShow : Value → String
  | .undefined => "undefined"
  | .null => "null"
  | .bool b => if b then "true" else "false"
  | .num n => toString n
  | .str s => s
  | .arr xs => String.intercalate "," (xs.map (fun _ => "[object]"))
  | .obj _ => "[object Object]"

/-! ## Layout engine (`src/utils/positioning.ts`) -/

/-- A 2-D coordinate record `{x, y}`. -/
structure Position where
  x : Int
  y : Int
deriving DecidableEq, Repr

/-- `DEFAULT_POSITION = { x: 100, y: 240 }`. -/
def DEFAULT_POSITION : Position := ⟨100, 240⟩

/-- `NODE_HORIZONTAL_SPACING = 200`. -/
def NODE_HORIZONTAL_SPACING : Int := 200

/-- `NODE_VERTICAL_SPACING = 140`. -/
def NODE_VERTICAL_SPACING : Int := 140

/-- `calculateNextPosition`: one horizontal step to the right. -/
def calculateNextPosition (current : Position) : Position :=
  ⟨current.x + NODE_HORIZONTAL_SPACING, current.y⟩

/-- `calculateBranchPosition`: branch index and total branch count are the
`forEach` index and the array length at every call site, hence naturals;
`Math.floor(totalBranches / 2)` on naturals is natural division. -/
def calculateBranchPosition (basePosition : Position) (branchIndex : Nat)
    (totalBranches : Nat) : Position :=
  let centerBranchOffset : Nat := totalBranches / 2
  let yOffset : Int :=
    ((branchIndex : Int) - (centerBranchOffset : Int)) * NODE_VERTICAL_SPACING
  ⟨basePosition.x + NODE_HORIZONTAL_SPACING, basePosition.y + yOffset⟩

/-! ## Graph normalizer, node stage (identical in both variants of
`validateWorkflowSpec`) -/

/-- The uuid generator `uuidv4()` modelled deterministically by a counter
threaded through the computation; successive calls yield distinct ids. -/
def uuidv4 (c : Nat) : String := "uuid-" ++ toString c

/-- A node produced by the normalizer.  The fields are exactly the keys of
the object literal the normalizer returns for each accepted raw node —
`onError`, `maxTries`, `waitBetweenTries`, `executeOnce`, `notesInFlow`
and `notes` are not among them.  Required `type`/`name` are strings by
validation; every other field holds whatever value the raw node supplied
(or the applied default). -/
structure NormNode where
  id : Value
  type : String
  name : String
  parameters : Value
  position : Value
  credentials : Value
  typeVersion : Value
  disabled : Value
  webhookId : Value
  continueOnFail : Value
  alwaysOutputData : Value
  retryOnFail : Value

/-- The object literal the normalizer builds for a node, with its keys in
source order. -/
def NormNode.toValue (n : NormNode) : Value :=
  .obj [("id", n.id), ("type", .str n.type), ("name", .str n.name),
        ("parameters", n.parameters), ("position", n.position),
        ("credentials", n.credentials), ("typeVersion", n.typeVersion),
        ("disabled", n.disabled), ("webhookId", n.webhookId),
        ("continueOnFail", n.continueOnFail),
        ("alwaysOutputData", n.alwaysOutputData),
        ("retryOnFail", n.retryOnFail)]

/-- One step of `input.nodes.map(...)`: validate one raw node and build
its normalized record.  The first property access (`node.type`) uses the
fallible read: a `null` element has `typeof === "object"` but property
access on it throws a `TypeError`.  Once that access succeeded the
receiver is a non-null object and the remaining reads are total.
`Array.isArray(DEFAULT_POSITION)` is statically false (`DEFAULT_POSITION`
is the `{x, y}` record), so the default position takes the
`[DEFAULT_POSITION.x, DEFAULT_POSITION.y]` branch. -/
def normalizeNode (c : Nat) (node : Value) : Except VError (NormNode × Nat) :=
  if jsTypeof node ≠ "object" then
    .error (.invalidInput "Node must be an object")
  else match getField node "type" with
  | .error e => .error e
  | .ok t =>
    if ¬ t.isStr then .error (.invalidInput "Node must have a type property")
    else if ¬ (getF node "name").isStr then
      .error (.invalidInput "Node must have a name property")
    else
      let idv := getF node "id"
      let pv := getF node "position"
      .ok (⟨if truthy idv then idv else .str (uuidv4 c),
            t.asStr,
            (getF node "name").asStr,
            jsOr (getF node "parameters") (.obj []),
            if truthy pv then pv
              else .arr [.num DEFAULT_POSITION.x, .num DEFAULT_POSITION.y],
            getF node "credentials",
            jsOr (getF node "typeVersion") (.num 1),
            jsOr (getF node "disabled") (.bool false),
            getF node "webhookId",
            getF node "continueOnFail",
            getF node "alwaysOutputData",
            getF node "retryOnFail"⟩,
           if truthy idv then c else c + 1)

/-- `input.nodes.map(...)`, threading the uuid counter; the first thrown
error aborts the whole call, as an exception escaping `map` does. -/
def normalizeNodes (c : Nat) : List Value → Except VError (List NormNode × Nat)
  | [] => .ok ([], c)
  | v :: vs =>
    match normalizeNode c v with
    | .error e => .error e
    | .ok (n, c') =>
      match normalizeNodes c' vs with
      | .error e => .error e
      | .ok (ns, c'') => .ok (n :: ns, c'')

/-! ## Graph normalizer, connection stage (newer variant,
`{ sourceName: { main: Edge[][] } }` canonical shape) -/

/-- An edge as pushed by the normalizer and the builder:
`{ node: <target name>, type: "main", index: <value> }`.  The `type`
field is always the literal `"main"` and is added by `Edge.toValue`. -/
structure Edge where
  node : String
  index : Value

def Edge.toValue (e : Edge) : Value :=
  .obj [("node", .str e.node), ("type", .str "main"), ("index", e.index)]

/-- The per-source connection table being built:
source name ↦ per-output-port edge lists. -/
abbrev ConnTable := List (String × List (List Edge))

def ConnTable.toValue (tbl : ConnTable) : Value :=
  .obj (tbl.map (fun p =>
    (p.1, Value.obj [("main",
      Value.arr (p.2.map (fun port => Value.arr (port.map Edge.toValue))))])))

/-- The `while (main.length <= outputIndex) main.push([])` padding loop,
written with an explicit iteration bound so that it computes by
structural recursion; the loop runs `k + 1 - m.length` times, so a
bound of `k + 1` always suffices (see `padMain`). -/
def padMainGo {α : Type} : Nat → List (List α) → Nat → List (List α)
  | 0, m, _ => m
  | fuel + 1, m, k =>
    if m.length ≤ k then padMainGo fuel (m ++ [[]]) k else m

/-- The `while (main.length <= outputIndex) main.push([])` padding loop. -/
def padMain {α : Type} (m : List (List α)) (k : Nat) : List (List α) :=
  padMainGo (k + 1) m k

/-- `normalizedNodes.find(n => n.id === ref || n.name === ref)`:
single-pass id-or-name lookup of a connection endpoint. -/
def findNodeByRef (ns : List NormNode) (ref : Value) : Option NormNode :=
  ns.find? (fun n => strictEq n.id ref || strictEq (.str n.name) ref)

/-- The `console.warn` text recorded when a flat connection entry cannot
be resolved (empty for entries that never reach that warning). -/
def dropWarning (conn : Value) : String :=
  "Connection error: Cannot find nodes for connection from " ++
    vShow (getF conn "source") ++ " to " ++ vShow (getF conn "target")

/-- One iteration of `input.connections.forEach(...)` in the newer
normalizer: validate the entry, resolve both endpoints by id-or-name,
drop the entry with a warning when either endpoint is unresolved,
otherwise initialize/pad the source's `main` port-array and push the
edge at port `conn.sourceOutput || 0` with target input
`conn.targetInput || 0`.  The first access `conn.source` is fallible
(a `null` entry raises a `TypeError`); afterwards the entry is non-null.
A truthy non-numeric or negative `sourceOutput` makes the JavaScript code
index the port array at a nonexistent position and call `push` on
`undefined`, a `TypeError` (numeric-string indices are not modelled). -/
def processConnEntry (ns : List NormNode) (acc : ConnTable × List String)
    (conn : Value) : Except VError (ConnTable × List String) :=
  match getField conn "source" with
  | .error e => .error e
  | .ok s =>
    if ¬ truthy s then
      .error (.invalidInput "Connection must have source and target properties")
    else if ¬ truthy (getF conn "target") then
      .error (.invalidInput "Connection must have source and target properties")
    else
      match findNodeByRef ns s, findNodeByRef ns (getF conn "target") with
      | some sn, some tn =>
        let tbl0 := acc.1
        let tbl1 := if (tbl0.lookup sn.name).isSome then tbl0
                    else tbl0 ++ [(sn.name, [[]])]
        match jsOr (getF conn "sourceOutput") (.num 0) with
        | .num k =>
          if k < 0 then .error .typeError
          else
            let k' := k.toNat
            let m := (tbl1.lookup sn.name).getD [[]]
            let m1 := padMain m k'
            let edge : Edge := ⟨tn.name, jsOr (getF conn "targetInput") (.num 0)⟩
            .ok (setKey tbl1 sn.name (m1.set k' (m1.getD k' [] ++ [edge])), acc.2)
        | _ => .error .typeError
      | _, _ => .ok (acc.1, acc.2 ++ [dropWarning conn])

/-- The whole `forEach` over a flat connection array. -/
def buildConnTable (ns : List NormNode) (acc : ConnTable × List String) :
    List Value → Except VError (ConnTable × List String)
  | [] => .ok acc
  | conn :: rest =>
    match processConnEntry ns acc conn with
    | .error e => .error e
    | .ok acc' => buildConnTable ns acc' rest

/-- The connection stage of the newer normalizer: falsy `connections`
leave the table empty; a non-array object is passed through as already
canonical; an array is converted entry by entry; any other truthy value
is rejected. -/
def normalizeConnections (ns : List NormNode) (connsV : Value) :
    Except VError (Value × List String) :=
  if ¬ truthy connsV then .ok (.obj [], [])
  else if jsTypeof connsV = "object" ∧ isArray connsV = false then .ok (connsV, [])
  else match connsV with
    | .arr entries =>
      match buildConnTable ns ([], []) entries with
      | .error e => .error e
      | .ok (tbl, ws) => .ok (tbl.toValue, ws)
    | _ => .error (.invalidInput
        "Workflow connections must be an object or an array of source/target connections")

/-! ## Graph normalizer, full pipeline (newer variant) -/

/-- The default settings record built when `input.settings` is falsy
(note: it does not yet contain `executionOrder`; that key is assigned
afterwards). -/
def defaultSettings : Value :=
  .obj [("saveExecutionProgress", .bool true),
        ("saveManualExecutions", .bool true),
        ("saveDataErrorExecution", .str "all"),
        ("saveDataSuccessExecution", .str "none")]

/-- `settings.executionOrder = 'v1'` — the in-place assignment performed
on whichever object `settings` aliases: the caller's `input.settings`
when that is truthy, the fresh default record otherwise.  In strict mode
(ES modules) the assignment on a truthy primitive throws a `TypeError`;
a truthy array receiver is not modelled (never produced by the callers
under study) and conservatively also maps to `TypeError`. -/
def forceExecutionOrder (base : Value) : Except VError Value :=
  match base with
  | .obj sfs => .ok (.obj (setKey sfs "executionOrder" (.str "v1")))
  | _ => .error .typeError

/-- Result of the newer normalizer: the produced spec, the value the
input object holds after the call (capturing the in-place write to
`input.settings`), and the `console.warn` diagnostics recorded. -/
structure NormResult where
  spec : Value
  inputAfter : Value
  warnings : List String

/-- The newer `validateWorkflowSpec` (canonical connection shape
`{ sourceName: { main: Edge[][] } }`).  `c` seeds the modelled uuid
generator. -/
def validateWorkflowSpec (c : Nat) (input : Value) : Except VError NormResult :=
  if ¬ truthy input ∨ jsTypeof input ≠ "object" then
    .error (.invalidInput "Workflow spec must be an object")
  else match getF input "nodes" with
  | .arr rawNodes =>
    (match normalizeNodes c rawNodes with
    | .error e => .error e
    | .ok (ns, _) =>
      match normalizeConnections ns (getF input "connections") with
      | .error e => .error e
      | .ok (connections, warnings) =>
        match forceExecutionOrder
            (if truthy (getF input "settings") then getF input "settings"
             else defaultSettings) with
        | .error e => .error e
        | .ok settings =>
          .ok ⟨Value.obj
            [("name", jsOr (getF input "name") (.str "New Workflow")),
             ("nodes", .arr (ns.map NormNode.toValue)),
             ("connections", connections),
             ("settings", settings)],
            (if truthy (getF input "settings") then
              match input with
              | .obj fs => Value.obj (setKey fs "settings" settings)
              | _ => input
            else input),
            warnings⟩)
  | _ => .error (.invalidInput "Workflow nodes must be an array")

/-! ## Graph normalizer, older variant (`{ main: ... }` canonical shape,
with the heuristic implicit-source inference) -/

/-- Whether `pat` is a prefix of `text` (on character lists). -/
def prefixOfL : List Char → List Char → Bool
  | [], _ => true
  | _ :: _, [] => false
  | a :: pat, b :: text => a == b && prefixOfL pat text

/-- Whether `pat` occurs in `text` (on character lists). -/
def containsSubL : List Char → List Char → Bool
  | text, pat =>
    if prefixOfL pat text then true
    else match text with
      | [] => false
      | _ :: rest => containsSubL rest pat

/-- `String.prototype.includes`: substring containment. -/
def includesSub (s sub : String) : Bool := containsSubL s.data sub.data

/-- Endpoint lookup of the older variant: one full pass by id, then —
only when that failed — a pass by name. -/
def findNodeByIdThenName (ns : List NormNode) (ref : Value) : Option NormNode :=
  match ns.find? (fun n => strictEq n.id ref) with
  | some n => some n
  | none => ns.find? (fun n => strictEq (.str n.name) ref)

/-- `normalizedNodes.find(n => n.name === "Start" || n.name === "Trigger"
|| n.type.includes("trigger")) || normalizedNodes[0]`: a single pass over
the node list with the three criteria as one disjunction, falling back to
the first node. -/
def chooseImplicitSource (ns : List NormNode) : Option NormNode :=
  match ns.find? (fun n =>
      n.name == "Start" || n.name == "Trigger" || includesSub n.type "trigger") with
  | some n => some n
  | none => ns.head?

/-- The older variant's flat per-source table
(`ConnectionItem`: source name ↦ edge list, one implicit port). -/
abbrev ConnItem := List (String × List Edge)

def ConnItem.toValue (item : ConnItem) : Value :=
  .obj (item.map (fun p => (p.1, Value.arr (p.2.map Edge.toValue))))

/-- One iteration of the older variant's `forEach` over a flat connection
array: resolve by id then by name, drop-and-warn on failure, else append
`{node: targetName, type:"main", index: conn.sourceOutput || 0}` to the
source's flat edge list. -/
def processConnEntry2 (ns : List NormNode) (acc : ConnItem × List String)
    (conn : Value) : Except VError (ConnItem × List String) :=
  match getField conn "source" with
  | .error e => .error e
  | .ok s =>
    if ¬ truthy s then
      .error (.invalidInput "Connection must have source and target properties")
    else if ¬ truthy (getF conn "target") then
      .error (.invalidInput "Connection must have source and target properties")
    else
      match findNodeByIdThenName ns s,
            findNodeByIdThenName ns (getF conn "target") with
      | some sn, some tn =>
        let tbl := acc.1
        let tbl1 := if (tbl.lookup sn.name).isSome then tbl
                    else tbl ++ [(sn.name, [])]
        let cur := (tbl1.lookup sn.name).getD []
        .ok (setKey tbl1 sn.name
              (cur ++ [⟨tn.name, jsOr (getF conn "sourceOutput") (.num 0)⟩]),
             acc.2)
      | _, _ => .ok (acc.1, acc.2 ++ [dropWarning conn])

def buildConnItem (ns : List NormNode) (acc : ConnItem × List String) :
    List Value → Except VError (ConnItem × List String)
  | [] => .ok acc
  | conn :: rest =>
    match processConnEntry2 ns acc conn with
    | .error e => .error e
    | .ok acc' => buildConnItem ns acc' rest

/-- Shape detection of the older variant, in source order: a truthy
`connections.main` that is an array selects the direct-array path
(`useDirectArray = true`, connections passed through for now); a truthy
non-array object `main` passes through; an array `connections` is
converted entry by entry; a truthy non-object is rejected; any other
object keeps the initial `{ main: {} }`. -/
def connShape2 (ns : List NormNode) (connsV : Value) :
    Except VError (Value × Bool) :=
  if ¬ truthy connsV then .ok (.obj [("main", .obj [])], false)
  else
    let mainV := getF connsV "main"
    if truthy mainV && isArray mainV then .ok (connsV, true)
    else if truthy mainV = true ∧ jsTypeof mainV = "object" ∧ isArray mainV = false then
      .ok (connsV, false)
    else match connsV with
      | .arr entries =>
        (match buildConnItem ns ([], []) entries with
        | .error e => .error e
        | .ok (item, _) => .ok (.obj [("main", item.toValue)], false))
      | _ =>
        if jsTypeof connsV ≠ "object" then
          .error (.invalidInput
            "Workflow connections must be an object with a \"main\" property or an array")
        else .ok (.obj [("main", .obj [])], false)

/-- The older `validateWorkflowSpec` (embedded as `validateWorkflowSpec2`):
after shape detection, a direct-array `main` — a shape in which no source
node is structurally identified — is attached wholesale to a single
heuristically chosen source node (`chooseImplicitSource`), or dropped when
either the array or the node list is empty.  The name/settings stages are
the same code as in the newer variant; only the produced spec is returned
(the in-place settings write is modelled on the newer variant, whose
claims concern it). -/
def validateWorkflowSpec2 (c : Nat) (input : Value) : Except VError Value :=
  if ¬ truthy input ∨ jsTypeof input ≠ "object" then
    .error (.invalidInput "Workflow spec must be an object")
  else match getF input "nodes" with
  | .arr rawNodes =>
    (match normalizeNodes c rawNodes with
    | .error e => .error e
    | .ok (ns, _) =>
      match connShape2 ns (getF input "connections") with
      | .error e => .error e
      | .ok (normalized, useDirect) =>
        match forceExecutionOrder
            (if truthy (getF input "settings") then getF input "settings"
             else defaultSettings) with
        | .error e => .error e
        | .ok settings =>
          .ok (Value.obj
            [("name", jsOr (getF input "name") (.str "New Workflow")),
             ("nodes", .arr (ns.map NormNode.toValue)),
             ("connections",
              if useDirect && truthy (getF normalized "main") &&
                  isArray (getF normalized "main") then
                match getF normalized "main" with
                | .arr es =>
                  Value.obj [("main", Value.obj
                    (if 0 < es.length ∧ 0 < ns.length then
                      match chooseImplicitSource ns with
                      | some sn => [(sn.name, Value.arr es)]
                      | none => []
                    else []))]
                | _ => normalized
              else normalized),
             ("settings", settings)]))
  | _ => .error (.invalidInput "Workflow nodes must be an array")

/-! ## Graph builder (`src/services/workflowBuilder.ts`)

The builder constructs its own nodes from typed TypeScript inputs, so the
builder embedding uses typed records rather than raw `Value`s.  Port and
index arguments are naturals (the call sites under study pass non-negative
integral `number`s).  The class instance is a state record; each method is
a function from the state (plus arguments) to the new state, with
`Except BuildError` for the methods that throw. -/

/-- A workflow-level settings record; `none` models an absent key.
Spreading a partial over the current record (`{...cur, ...partial}`)
overrides exactly the keys present in the partial. -/
structure WorkflowSettings where
  saveExecutionProgress : Option Bool
  saveManualExecutions : Option Bool
  saveDataErrorExecution : Option String
  saveDataSuccessExecution : Option String
  executionTimeout : Option Int
  errorWorkflow : Option String
  timezone : Option String
  executionOrder : Option String
deriving DecidableEq, Repr

/-- `{ ...cur, ...p }`: keys present in `p` win. -/
def mergeSettings (cur p : WorkflowSettings) : WorkflowSettings :=
  ⟨p.saveExecutionProgress <|> cur.saveExecutionProgress,
   p.saveManualExecutions <|> cur.saveManualExecutions,
   p.saveDataErrorExecution <|> cur.saveDataErrorExecution,
   p.saveDataSuccessExecution <|> cur.saveDataSuccessExecution,
   p.executionTimeout <|> cur.executionTimeout,
   p.errorWorkflow <|> cur.errorWorkflow,
   p.timezone <|> cur.timezone,
   p.executionOrder <|> cur.executionOrder⟩

/-- A settings partial with no keys. -/
def emptySettings : WorkflowSettings :=
  ⟨none, none, none, none, none, none, none, none⟩

/-- The builder's initial `workflowSettings` field value — note it carries
`executionOrder: 'v1'` (unlike the normalizer's default record, which
gains that key by the later assignment). -/
def builderDefaultSettings : WorkflowSettings :=
  { emptySettings with
    saveExecutionProgress := some true,
    saveManualExecutions := some true,
    saveDataErrorExecution := some "all",
    saveDataSuccessExecution := some "none",
    executionOrder := some "v1" }

/-- A node position as stored on a builder node: either the `[x, y]`
array form or the `{x, y}` record form. -/
inductive NodePosition where
  | arr (coords : List Int)
  | xy (x y : Int)
deriving DecidableEq, Repr

/-- An edge as the builder records it:
`{ node: <target name>, type: "main", index: <source output index> }`. -/
structure NodeConnection where
  node : String
  index : Nat
deriving DecidableEq, Repr

/-- A node held by the builder (the fields `addNode` writes). -/
structure WorkflowNode where
  id : String
  type : String
  name : String
  parameters : Value
  position : NodePosition
  typeVersion : Int
  credentials : Option Value

/-- The argument of `addNode`:
`Partial<WorkflowNode> & { type: string; name: string }`. -/
structure NodeInput where
  id : Option String
  type : String
  name : String
  parameters : Option Value
  position : Option NodePosition
  typeVersion : Option Int
  credentials : Option Value

/-- One branch configuration for `addBranches`. -/
structure BranchSpec where
  type : String
  name : String
  parameters : Option Value
  credentials : Option Value

/-- Errors thrown by builder methods (plain `Error`s in the source; the
spec names this kind `NotFound`). -/
inductive BuildError where
  | notFound (msg : String)
deriving DecidableEq, Repr

/-- The private mutable state of a `WorkflowBuilder` instance, plus the
counter seeding the modelled uuid generator. -/
structure WorkflowBuilder where
  nodes : List WorkflowNode
  connections : List (String × List (List NodeConnection))
  useDirectConnectionsArray : Bool
  nextPosition : Position
  workflowName : String
  workflowSettings : WorkflowSettings
  workflowActive : Bool
  workflowTags : List String
  freshCounter : Nat

/-- A freshly constructed `WorkflowBuilder`. -/
def WorkflowBuilder.init : WorkflowBuilder :=
  ⟨[], [], false, DEFAULT_POSITION, "New Workflow", builderDefaultSettings,
   false, [], 0⟩

def WorkflowBuilder.setName (b : WorkflowBuilder) (name : String) :
    WorkflowBuilder :=
  { b with workflowName := name }

/-- `setSettings`: shallow spread-merge of the partial over the running
settings.  No key is re-forced afterwards. -/
def WorkflowBuilder.setSettings (b : WorkflowBuilder) (s : WorkflowSettings) :
    WorkflowBuilder :=
  { b with workflowSettings := mergeSettings b.workflowSettings s }

def WorkflowBuilder.setActive (b : WorkflowBuilder) (active : Bool) :
    WorkflowBuilder :=
  { b with workflowActive := active }

def WorkflowBuilder.setTags (b : WorkflowBuilder) (tags : List String) :
    WorkflowBuilder :=
  { b with workflowTags := tags }

/-- `setConnectionFormat`: deprecated; always forces the object-mapping
format and resets the connection table. -/
def WorkflowBuilder.setConnectionFormat (b : WorkflowBuilder) (_ : Bool) :
    WorkflowBuilder :=
  { b with useDirectConnectionsArray := false, connections := [] }

def WorkflowBuilder.resetPosition (b : WorkflowBuilder) : WorkflowBuilder :=
  { b with nextPosition := DEFAULT_POSITION }

/-- `addNode`: an omitted position takes the layout cursor (array form)
and advances it; an explicit position is used as given and the cursor is
untouched.  `nodeData.id || uuidv4()` and `nodeData.typeVersion || 1`
follow JavaScript truthiness (an empty-string id and a zero version are
replaced); `nodeData.parameters || {}` likewise. -/
def WorkflowBuilder.addNode (b : WorkflowBuilder) (nd : NodeInput) :
    WorkflowBuilder × WorkflowNode :=
  let position := match nd.position with
    | some p => p
    | none => .arr [b.nextPosition.x, b.nextPosition.y]
  let idPair : String × Nat := match nd.id with
    | some s => if s = "" then (uuidv4 b.freshCounter, b.freshCounter + 1)
                else (s, b.freshCounter)
    | none => (uuidv4 b.freshCounter, b.freshCounter + 1)
  let node : WorkflowNode :=
    ⟨idPair.1, nd.type, nd.name,
     jsOr (nd.parameters.getD .undefined) (.obj []),
     position,
     (match nd.typeVersion with
      | some v => if v = 0 then 1 else v
      | none => 1),
     nd.credentials⟩
  ({ b with
      freshCounter := idPair.2,
      nodes := b.nodes ++ [node],
      nextPosition := match nd.position with
        | some _ => b.nextPosition
        | none => calculateNextPosition b.nextPosition },
   node)

/-- `addTrigger`: generates an id, places the node at the default
coordinate in array form (so `addNode` will not advance the cursor), and
sets the cursor to one step after the default coordinate. -/
def WorkflowBuilder.addTrigger (b : WorkflowBuilder) (type name : String)
    (parameters : Value) (credentials : Option Value) :
    WorkflowBuilder × WorkflowNode :=
  let b1 := { b with nextPosition := calculateNextPosition DEFAULT_POSITION,
                     freshCounter := b.freshCounter + 1 }
  WorkflowBuilder.addNode b1
    ⟨some (uuidv4 b.freshCounter), type, name, some parameters,
     some (.arr [DEFAULT_POSITION.x, DEFAULT_POSITION.y]), some 1, credentials⟩

/-- `connectNodes`: throws when either id matches no node; otherwise
resolves both nodes, initializes the source name's entry if needed, pads
its `main` port-array to length at least `outputIndex + 1`, and appends
`{node: targetName, type: "main", index: outputIndex}` at port
`outputIndex`.  (The source's defensive `!entry.main` re-initialization
branch is unreachable here: every entry this model ever stores has its
port-array.) -/
def WorkflowBuilder.connectNodes (b : WorkflowBuilder)
    (sourceNodeId targetNodeId : String) (outputIndex : Nat) :
    Except BuildError WorkflowBuilder :=
  let sourceExists := b.nodes.any (fun n => n.id == sourceNodeId)
  let targetExists := b.nodes.any (fun n => n.id == targetNodeId)
  if ¬ (sourceExists && targetExists) then
    .error (.notFound "Cannot connect nodes: one or both nodes do not exist")
  else match b.nodes.find? (fun n => n.id == sourceNodeId) with
  | none => .error (.notFound
      ("Source node " ++ sourceNodeId ++ " not found"))
  | some sourceNode =>
    match b.nodes.find? (fun n => n.id == targetNodeId) with
    | none => .error (.notFound
        ("Target node " ++ targetNodeId ++ " not found"))
    | some targetNode =>
      let connection : NodeConnection := ⟨targetNode.name, outputIndex⟩
      let tbl := b.connections
      let tbl1 := if (tbl.lookup sourceNode.name).isSome then tbl
                  else tbl ++ [(sourceNode.name, [[]])]
      let m := (tbl1.lookup sourceNode.name).getD [[]]
      let m1 := padMain m outputIndex
      let tbl2 := setKey tbl1 sourceNode.name
        (m1.set outputIndex (m1.getD outputIndex [] ++ [connection]))
      .ok { b with connections := tbl2 }

/-- The position record read off the source node inside `addBranches`
(`position[0]/position[1]` on the array form; a too-short array is never
produced by the builder). -/
def posOf : NodePosition → Position
  | .arr cs => ⟨cs.getD 0 0, cs.getD 1 0⟩
  | .xy x y => ⟨x, y⟩

/-- The loop body sequence of `addBranches`: for each branch spec, place
it via `calculateBranchPosition` relative to the source's position,
create it (explicit position, so the cursor is untouched) and connect the
source to it at output port 0. -/
def addBranchesGo (sourceNode : WorkflowNode) (total : Nat)
    (b : WorkflowBuilder) (made : List WorkflowNode) (idx : Nat) :
    List BranchSpec → Except BuildError (WorkflowBuilder × List WorkflowNode)
  | [] => .ok (b, made)
  | bc :: rest =>
    let sourcePos := posOf sourceNode.position
    let posObj := calculateBranchPosition sourcePos idx total
    let pr := WorkflowBuilder.addNode b
      ⟨none, bc.type, bc.name,
       some (jsOr (bc.parameters.getD .undefined) (.obj [])),
       some (.arr [posObj.x, posObj.y]), none, bc.credentials⟩
    match WorkflowBuilder.connectNodes pr.1 sourceNode.id pr.2.id 0 with
    | .error e => .error e
    | .ok b' => addBranchesGo sourceNode total b' (made ++ [pr.2]) (idx + 1) rest

/-- `addBranches`: throws when the source id matches no node; otherwise
creates and connects one branch node per spec, returning them in input
order. -/
def WorkflowBuilder.addBranches (b : WorkflowBuilder) (sourceNodeId : String)
    (branchTypes : List BranchSpec) :
    Except BuildError (WorkflowBuilder × List WorkflowNode) :=
  match b.nodes.find? (fun n => n.id == sourceNodeId) with
  | none => .error (.notFound
      ("Source node with ID " ++ sourceNodeId ++ " not found"))
  | some sourceNode =>
    addBranchesGo sourceNode branchTypes.length b [] 0 branchTypes

/-- The snapshot `exportWorkflow` returns (no `active`, no `tags`). -/
structure WorkflowSpecOut where
  name : String
  nodes : List WorkflowNode
  connections : List (String × List (List NodeConnection))
  settings : WorkflowSettings
  staticData : Value

/-- `exportWorkflow`: a read-only snapshot of the builder state; the
settings are returned as held, with no further forcing. -/
def WorkflowBuilder.exportWorkflow (b : WorkflowBuilder) : WorkflowSpecOut :=
  ⟨b.workflowName, b.nodes, b.connections, b.workflowSettings,
   .obj [("lastId", .num 1)]⟩

/-- `clear`: resets the node list, the connection table and the layout
cursor; name, settings, tags and active flag are untouched. -/
def WorkflowBuilder.clear (b : WorkflowBuilder) : WorkflowBuilder :=
  { b with nodes := [], connections := [], nextPosition := DEFAULT_POSITION }

/-! ## Statement-side definitions -/

/-- Modelled from the spec's wording of the edge-append step (both for the
normalizer's flat-array conversion and for `connectNodes`): under the
source name, pad the `main` port-array with empty lists to length at least
`k + 1` and append the edge at port `k`; a missing source entry starts as
a single empty port. -/
def specAppendPort {α : Type} (tbl : List (String × List (List α)))
    (srcName : String) (k : Nat) (e : α) : List (String × List (List α)) :=
  let m0 := (tbl.lookup srcName).getD [[]]
  let m1 := m0 ++ List.replicate (k + 1 - m0.length) []
  setKey tbl srcName (m1.set k (m1.getD k [] ++ [e]))

/-- Whether a result carries an `InvalidInput`-kind error. -/
def isInvalidInputError {α : Type} : Except VError α → Bool
  | .error (.invalidInput _) => true
  | _ => false

/-- A flat connection entry that the newer normalizer's `forEach` body
processes without throwing: its `source`/`target` reads succeed and are
truthy, and — when both endpoints resolve — its `sourceOutput` is absent,
falsy, or a non-negative number. -/
def entryWF (ns : List NormNode) (conn : Value) : Bool :=
  (match getField conn "source" with
   | .ok s => truthy s
   | .error _ => false) &&
  truthy (getF conn "target") &&
  ((findNodeByRef ns (getF conn "source")).isNone ||
   (findNodeByRef ns (getF conn "target")).isNone ||
   (match jsOr (getF conn "sourceOutput") (.num 0) with
    | .num k => decide (0 ≤ k)
    | _ => false))

/-- A flat connection entry neither of whose endpoints resolves fully:
source or target matches no node's id and no node's name. -/
def entryUnresolved (ns : List NormNode) (conn : Value) : Bool :=
  (findNodeByRef ns (getF conn "source")).isNone ||
  (findNodeByRef ns (getF conn "target")).isNone

/-! Concrete inputs and expected outputs used by scenario conjuncts,
witnesses and counterexamples. -/

/-- A raw input with an empty node list and no settings. -/
def c1input : Value := .obj [("nodes", .arr [])]

/-- What the newer normalizer produces for `c1input`. -/
def c1result : NormResult :=
  ⟨.obj [("name", .str "New Workflow"), ("nodes", .arr []),
         ("connections", .obj []),
         ("settings", .obj
           [("saveExecutionProgress", .bool true),
            ("saveManualExecutions", .bool true),
            ("saveDataErrorExecution", .str "all"),
            ("saveDataSuccessExecution", .str "none"),
            ("executionOrder", .str "v1")])],
   c1input, []⟩

/-- A settings partial carrying a non-canonical execution-order tag. -/
def c1partial : WorkflowSettings :=
  { emptySettings with executionOrder := some "v0" }

/-- Nodes `A`,`B`,`C` with the two-entry flat connection array of the
spec's normalizer scenario. -/
def c2input : Value :=
  .obj [("nodes", .arr
          [.obj [("type", .str "t"), ("name", .str "A")],
           .obj [("type", .str "t"), ("name", .str "B")],
           .obj [("type", .str "t"), ("name", .str "C")]]),
        ("connections", .arr
          [.obj [("source", .str "A"), ("target", .str "B")],
           .obj [("source", .str "A"), ("target", .str "C"),
                 ("sourceOutput", .num 1)]])]

/-- The canonical table the spec's scenario expects for `c2input`. -/
def c2expected : Value :=
  .obj [("A", .obj [("main", .arr
    [.arr [.obj [("node", .str "B"), ("type", .str "main"), ("index", .num 0)]],
     .arr [.obj [("node", .str "C"), ("type", .str "main"), ("index", .num 0)]]])])]

/-- A raw input whose node list contains `null`. -/
def c3input : Value := .obj [("nodes", .arr [.null])]

/-- The flat entry of `c4input` whose target resolves to no node. -/
def c4badEntry : Value :=
  .obj [("source", .str "A"), ("target", .str "Nope")]

/-- The resolvable flat entry of `c4input`. -/
def c4goodEntry : Value :=
  .obj [("source", .str "A"), ("target", .str "B")]

/-- The raw node list of `c4input`. -/
def c4rawNodes : List Value :=
  [.obj [("type", .str "t"), ("name", .str "A")],
   .obj [("type", .str "t"), ("name", .str "B")]]

/-- The fields of `c4input`. -/
def c4fields : List (String × Value) :=
  [("nodes", .arr c4rawNodes),
   ("connections", .arr [c4badEntry, c4goodEntry])]

/-- Nodes `A`,`B` with one unresolvable and one resolvable flat entry. -/
def c4input : Value := .obj c4fields

/-- The table built from `c4input`'s resolvable entry alone. -/
def c4expected : Value :=
  .obj [("A", .obj [("main", .arr
    [.arr [.obj [("node", .str "B"), ("type", .str "main"), ("index", .num 0)]]])])]

/-- The normalized node the normalizer builds for raw node `A` of
`c2input` (id from the counter-seeded uuid generator). -/
def wNodeA : NormNode :=
  ⟨.str "uuid-0", "t", "A", .obj [], .arr [.num 100, .num 240], .undefined,
   .num 1, .bool false, .undefined, .undefined, .undefined, .undefined⟩

/-- The normalized node for raw node `B` of `c2input`. -/
def wNodeB : NormNode :=
  ⟨.str "uuid-1", "t", "B", .obj [], .arr [.num 100, .num 240], .undefined,
   .num 1, .bool false, .undefined, .undefined, .undefined, .undefined⟩

/-- The first flat entry of `c2input`. -/
def c2conn1 : Value := .obj [("source", .str "A"), ("target", .str "B")]

/-- A minimal raw node's fields: just `type` and `name`. -/
def c6plainFields : List (String × Value) :=
  [("type", .str "t"), ("name", .str "N")]

/-- What the normalizer builds from `c6plainFields` at counter 0. -/
def c6plainNorm : NormNode :=
  ⟨.str "uuid-0", "t", "N", .obj [], .arr [.num 100, .num 240], .undefined,
   .num 1, .bool false, .undefined, .undefined, .undefined, .undefined⟩

/-- A raw node carrying the pass-through-claimed optional fields `notes`
and `maxTries`. -/
def c6node : Value :=
  .obj [("type", .str "t"), ("name", .str "N"),
        ("notes", .str "remember"), ("maxTries", .num 3)]

/-- The fields of `c7input`. -/
def c7fields : List (String × Value) :=
  [("nodes", .arr []), ("settings", .obj [("executionOrder", .str "v0")])]

/-- A raw input supplying its own settings object with a non-canonical
execution-order tag. -/
def c7input : Value := .obj c7fields

/-- What the newer normalizer produces for `c7input`: the caller's
settings object gains `executionOrder = "v1"` in place, so the returned
`inputAfter` differs from `c7input`. -/
def c7result : NormResult :=
  ⟨.obj [("name", .str "New Workflow"), ("nodes", .arr []),
         ("connections", .obj []),
         ("settings", .obj [("executionOrder", .str "v1")])],
   .obj [("nodes", .arr []),
         ("settings", .obj [("executionOrder", .str "v1")])],
   []⟩

/-- The single direct-array edge of `c8input`. -/
def c8edge : Value :=
  .obj [("node", .str "Start"), ("type", .str "main"), ("index", .num 0)]

/-- The raw node list of `c8input`. -/
def c8rawNodes : List Value :=
  [.obj [("type", .str "webhook-trigger"), ("name", .str "T1")],
   .obj [("type", .str "core.start"), ("name", .str "Start")]]

/-- The fields of `c8input`. -/
def c8fields : List (String × Value) :=
  [("nodes", .arr c8rawNodes),
   ("connections", .obj [("main", .arr [c8edge])])]

/-- Nodes where the first has a type containing "trigger" and the second
is literally named "Start", with a direct-array `main`. -/
def c8input : Value := .obj c8fields

/-- The normalized first node of `c8input`. -/
def nT1 : NormNode :=
  ⟨.str "uuid-0", "webhook-trigger", "T1", .obj [],
   .arr [.num 100, .num 240], .undefined, .num 1, .bool false,
   .undefined, .undefined, .undefined, .undefined⟩

/-- The normalized second node of `c8input`. -/
def nStart : NormNode :=
  ⟨.str "uuid-1", "core.start", "Start", .obj [],
   .arr [.num 100, .num 240], .undefined, .num 1, .bool false,
   .undefined, .undefined, .undefined, .undefined⟩

/-- Builder with a manual trigger named `Start` (first component) and
that trigger node (second component). -/
def bTrio : WorkflowBuilder × WorkflowNode :=
  WorkflowBuilder.init.addTrigger "trigger.manual" "Start" (.obj []) none

/-- `bTrio` extended with a `Log` node. -/
def bLog : WorkflowBuilder × WorkflowNode :=
  bTrio.1.addNode ⟨none, "action.log", "Log", none, none, none, none⟩

/-- Three branch specs for the spec's branching scenario. -/
def branchSpecs3 : List BranchSpec :=
  [⟨"t", "B1", none, none⟩, ⟨"t", "B2", none, none⟩, ⟨"t", "B3", none, none⟩]

/-- Two branch specs. -/
def branchSpecs2 : List BranchSpec :=
  [⟨"t", "B1", none, none⟩, ⟨"t", "B2", none, none⟩]

/-- A settings partial setting only the timezone. -/
def tzPartial : WorkflowSettings := { emptySettings with timezone := some "UTC" }

/-- A builder carrying a custom name, a merged timezone setting and one
node, about to be cleared. -/
def c10builder : WorkflowBuilder :=
  (((WorkflowBuilder.init.setName "My Flow").setSettings tzPartial).addNode
    ⟨none, "t", "N", none, none, none, none⟩).1

/-! ## Supporting lemmas -/
theorem padMainGo_eq {α : Type} (fuel : Nat) :
    ∀ (m : List (List α)) (k : Nat), k + 1 - m.length ≤ fuel →
    padMainGo fuel m k = m ++ List.replicate (k + 1 - m.length) [] := by
  induction fuel with
  | zero =>
    intro m k h
    have hz : k + 1 - m.length = 0 := by omega
    simp [padMainGo, hz]
  | succ fuel ih =>
    intro m k h
    unfold padMainGo
    by_cases hl : m.length ≤ k
    · rw [if_pos hl, ih (m ++ [[]]) k (by simp; omega)]
      have hr : k + 1 - m.length = (k + 1 - (m ++ [[]]).length) + 1 := by
        simp; omega
      rw [hr, List.replicate_succ]
      simp
    · rw [if_neg hl]
      have hz : k + 1 - m.length = 0 := by omega
      simp [hz]

theorem padMain_eq {α : Type} (m : List (List α)) (k : Nat) :
    padMain m k = m ++ List.replicate (k + 1 - m.length) [] :=
  padMainGo_eq (k + 1) m k (by omega)

theorem lookup_cons {α : Type} (ka k : String) (va : α) (fs : List (String × α)) :
    ((ka, va) :: fs).lookup k = if k = ka then some va else fs.lookup k := by
  by_cases hk : k = ka
  · simp [List.lookup, hk]
  · have hb : (k == ka) = false := by simp [hk]
    simp [List.lookup, hb, hk]

theorem lookup_append_none {α : Type} {fs : List (String × α)} {k : String}
    (gs : List (String × α)) (h : fs.lookup k = none) :
    (fs ++ gs).lookup k = gs.lookup k := by
  induction fs with
  | nil => rfl
  | cons a as ih =>
    obtain ⟨ka, va⟩ := a
    rw [lookup_cons] at h
    by_cases hk : k = ka
    · simp [hk] at h
    · rw [List.cons_append, lookup_cons, if_neg hk]
      exact ih (by simpa [hk] using h)

theorem lookup_setKey_self {α : Type} (fs : List (String × α)) (k : String)
    (v : α) : (setKey fs k v).lookup k = some v := by
  unfold setKey
  cases hs : (fs.lookup k).isSome with
  | false =>
    have hn : fs.lookup k = none := by
      cases h : fs.lookup k with
      | none => rfl
      | some w => rw [h] at hs; simp at hs
    simp only [hs, Bool.false_eq_true, if_false]
    rw [lookup_append_none _ hn, lookup_cons, if_pos rfl]
  | true =>
    simp only [hs, if_true]
    induction fs with
    | nil => simp at hs
    | cons a as ih =>
      obtain ⟨ka, va⟩ := a
      by_cases hk : ka = k
      · subst hk
        simp only [List.map_cons, beq_self_eq_true, if_true]
        rw [lookup_cons, if_pos rfl]
      · have hbk : (ka == k) = false := by simp [hk]
        simp only [List.map_cons, hbk, Bool.false_eq_true, if_false]
        rw [lookup_cons, if_neg (by exact fun hc => hk hc.symm)]
        apply ih
        rw [lookup_cons, if_neg (by exact fun hc => hk hc.symm)] at hs
        exact hs

theorem map_setKey_id {α : Type} {fs : List (String × α)} {k : String}
    (w : α) (h : fs.lookup k = none) :
    fs.map (fun p => if p.1 == k then (k, w) else p) = fs := by
  induction fs with
  | nil => rfl
  | cons a as ih =>
    obtain ⟨ka, va⟩ := a
    rw [lookup_cons] at h
    by_cases hk : k = ka
    · simp [hk] at h
    · have hbk : (ka == k) = false := by simp; exact fun hc => hk hc.symm
      simp only [List.map_cons, hbk, Bool.false_eq_true, if_false]
      rw [ih (by simpa [hk] using h)]

theorem setKey_append_self {α : Type} {fs : List (String × α)} {k : String}
    (v w : α) (h : fs.lookup k = none) :
    setKey (fs ++ [(k, v)]) k w = fs ++ [(k, w)] := by
  unfold setKey
  have hl : (fs ++ [(k, v)]).lookup k = some v := by
    rw [lookup_append_none _ h, lookup_cons, if_pos rfl]
  simp only [hl, Option.isSome_some, if_true]
  rw [List.map_append, map_setKey_id _ h]
  simp

theorem setKey_absent {α : Type} {fs : List (String × α)} {k : String}
    (w : α) (h : fs.lookup k = none) : setKey fs k w = fs ++ [(k, w)] := by
  unfold setKey
  simp [h]

/-- The initialize/pad/push sequence both converters perform equals the
spec-worded `specAppendPort`. -/
theorem appendPort_eq {α : Type} (tbl : List (String × List (List α)))
    (srcName : String) (k : Nat) (e : α) :
    (let tbl1 := if (tbl.lookup srcName).isSome then tbl
                 else tbl ++ [(srcName, [[]])]
     let m := (tbl1.lookup srcName).getD [[]]
     let m1 := padMain m k
     setKey tbl1 srcName (m1.set k (m1.getD k [] ++ [e]))) =
    specAppendPort tbl srcName k e := by
  unfold specAppendPort
  cases hs : (tbl.lookup srcName) with
  | some mv =>
    simp only [hs, Option.isSome_some, if_true, Option.getD_some]
    rw [padMain_eq]
  | none =>
    simp only [hs, Option.isSome_none, Bool.false_eq_true, if_false,
      Option.getD_none]
    have hl : (tbl ++ [(srcName, ([[]] : List (List α)))]).lookup srcName
        = some [[]] := by
      rw [lookup_append_none _ hs, lookup_cons, if_pos rfl]
    rw [hl]
    simp only [Option.getD_some]
    rw [padMain_eq, setKey_append_self _ _ hs, setKey_absent _ hs]


theorem getField_ok {conn : Value} {k : String} {v : Value}
    (h : getField conn k = .ok v) : v = getF conn k := by
  cases conn <;> simp_all [getField]

theorem processConnEntry_resolved (ns : List NormNode)
    (tbl : ConnTable) (ws : List String) (conn s : Value) (sn tn : NormNode)
    (k : Int) (hs : getField conn "source" = .ok s) (hts : truthy s = true)
    (htt : truthy (getF conn "target") = true)
    (hfs : findNodeByRef ns s = some sn)
    (hft : findNodeByRef ns (getF conn "target") = some tn)
    (hso : jsOr (getF conn "sourceOutput") (.num 0) = .num k)
    (hk : 0 ≤ k) :
    processConnEntry ns (tbl, ws) conn =
      .ok (specAppendPort tbl sn.name k.toNat
            ⟨tn.name, jsOr (getF conn "targetInput") (.num 0)⟩, ws) := by
  unfold processConnEntry
  rw [hs]
  simp only [hts, htt, not_true, ite_false, hfs, hft, hso]
  rw [if_neg (by omega : ¬ k < 0)]
  have h2 := appendPort_eq tbl sn.name k.toNat
    (⟨tn.name, jsOr (getF conn "targetInput") (.num 0)⟩ : Edge)
  simp only [] at h2
  simp only [h2]


theorem processConnEntry_unresolved (ns : List NormNode)
    (tbl : ConnTable) (ws : List String) (conn s : Value)
    (hs : getField conn "source" = .ok s) (hts : truthy s = true)
    (htt : truthy (getF conn "target") = true)
    (hu : entryUnresolved ns conn = true) :
    processConnEntry ns (tbl, ws) conn = .ok (tbl, ws ++ [dropWarning conn]) := by
  have hsv := getField_ok hs
  subst hsv
  unfold processConnEntry
  rw [hs]
  simp only [hts, htt, not_true, ite_false]
  unfold entryUnresolved at hu
  cases hf1 : findNodeByRef ns (getF conn "source") with
  | none => cases hf2 : findNodeByRef ns (getF conn "target") <;> simp
  | some sn =>
    cases hf2 : findNodeByRef ns (getF conn "target") with
    | none => simp
    | some tn => rw [hf1, hf2] at hu; simp at hu

theorem processConnEntry_wf (ns : List NormNode) (conn : Value)
    (h : entryWF ns conn = true) (tbl : ConnTable) (ws : List String) :
    ∃ tbl' d, processConnEntry ns (tbl, ws) conn = .ok (tbl', ws ++ d) ∧
      ∀ ws₂, processConnEntry ns (tbl, ws₂) conn = .ok (tbl', ws₂ ++ d) := by
  unfold entryWF at h
  simp only [Bool.and_eq_true] at h
  obtain ⟨⟨h1, h2⟩, h3⟩ := h
  cases hgf : getField conn "source" with
  | error e => rw [hgf] at h1; simp at h1
  | ok s =>
    rw [hgf] at h1
    have hsv := getField_ok hgf
    cases hf1 : findNodeByRef ns (getF conn "source") with
    | none =>
      refine ⟨tbl, [dropWarning conn], ?_, fun ws₂ => ?_⟩ <;>
        exact processConnEntry_unresolved ns _ _ conn s hgf h1 h2
          (by unfold entryUnresolved; rw [hf1]; simp)
    | some sn =>
      cases hf2 : findNodeByRef ns (getF conn "target") with
      | none =>
        refine ⟨tbl, [dropWarning conn], ?_, fun ws₂ => ?_⟩ <;>
          exact processConnEntry_unresolved ns _ _ conn s hgf h1 h2
            (by unfold entryUnresolved; rw [hf2]; simp)
      | some tn =>
        rw [hf1, hf2] at h3
        simp only [Option.isNone_some, Bool.false_or] at h3
        cases hjs : jsOr (getF conn "sourceOutput") (.num 0) with
        | num k =>
          rw [hjs] at h3
          simp only [decide_eq_true_eq] at h3
          refine ⟨specAppendPort tbl sn.name k.toNat
            ⟨tn.name, jsOr (getF conn "targetInput") (.num 0)⟩, [], ?_, fun ws₂ => ?_⟩ <;>
          · rw [List.append_nil]
            exact processConnEntry_resolved ns _ _ conn s sn tn k hgf h1 h2
              (by rw [← hsv] at hf1; exact hf1) hf2 hjs h3
        | undefined => rw [hjs] at h3; simp at h3
        | null => rw [hjs] at h3; simp at h3
        | bool b => rw [hjs] at h3; simp at h3
        | str s2 => rw [hjs] at h3; simp at h3
        | arr xs => rw [hjs] at h3; simp at h3
        | obj fs2 => rw [hjs] at h3; simp at h3

theorem buildConnTable_cons (ns : List NormNode) (acc : ConnTable × List String)
    (conn : Value) (rest : List Value) :
    buildConnTable ns acc (conn :: rest) =
      match processConnEntry ns acc conn with
      | .error e => .error e
      | .ok acc' => buildConnTable ns acc' rest := rfl

theorem buildConnTable_append (ns : List NormNode) (acc : ConnTable × List String)
    (l1 l2 : List Value) :
    buildConnTable ns acc (l1 ++ l2) =
      match buildConnTable ns acc l1 with
      | .error e => .error e
      | .ok acc' => buildConnTable ns acc' l2 := by
  induction l1 generalizing acc with
  | nil => simp [buildConnTable]
  | cons e rest ih =>
    rw [List.cons_append, buildConnTable_cons, buildConnTable_cons]
    cases hp : processConnEntry ns acc e with
    | error err => rfl
    | ok acc' => exact ih acc'

theorem buildConnTable_wf (ns : List NormNode) (es : List Value)
    (h : ∀ e ∈ es, entryWF ns e = true) (tbl : ConnTable) (ws : List String) :
    ∃ tbl' d, buildConnTable ns (tbl, ws) es = .ok (tbl', ws ++ d) ∧
      ∀ ws₂, buildConnTable ns (tbl, ws₂) es = .ok (tbl', ws₂ ++ d) := by
  induction es generalizing tbl ws with
  | nil =>
    exact ⟨tbl, [], by simp [buildConnTable], fun ws₂ => by simp [buildConnTable]⟩
  | cons e rest ih =>
    obtain ⟨t1, d1, he1, he2⟩ :=
      processConnEntry_wf ns e (h e (by simp)) tbl ws
    obtain ⟨t2, d2, hr1, hr2⟩ :=
      ih (fun x hx => h x (by simp [hx])) t1 (ws ++ d1)
    refine ⟨t2, d1 ++ d2, ?_, fun ws₂ => ?_⟩
    · unfold buildConnTable
      rw [he1, ← List.append_assoc]
      exact hr1
    · unfold buildConnTable
      rw [he2 ws₂, ← List.append_assoc]
      exact hr2 (ws₂ ++ d1)

theorem forceExecutionOrder_ok {b v : Value}
    (h : forceExecutionOrder b = .ok v) :
    ∃ sfs, b = .obj sfs ∧ v = .obj (setKey sfs "executionOrder" (.str "v1")) := by
  cases b <;> simp [forceExecutionOrder] at h
  exact ⟨_, rfl, h.symm⟩

theorem validate_ok_parts {c : Nat} {input : Value} {r : NormResult}
    (h : validateWorkflowSpec c input = .ok r) :
    ∃ sfs, (if truthy (getF input "settings") then getF input "settings"
            else defaultSettings) = .obj sfs ∧
      objLookup r.spec "settings" =
        some (.obj (setKey sfs "executionOrder" (.str "v1"))) ∧
      r.inputAfter = (if truthy (getF input "settings") then
          (match input with
           | .obj fs => Value.obj (setKey fs "settings"
               (.obj (setKey sfs "executionOrder" (.str "v1"))))
           | _ => input)
        else input) := by
  unfold validateWorkflowSpec at h
  split at h
  · exact absurd h (by simp)
  · cases hraw : getF input "nodes" with
    | arr rawNodes =>
      rw [hraw] at h
      simp only [] at h
      cases hnn : normalizeNodes c rawNodes with
      | error e => rw [hnn] at h; simp at h
      | ok p =>
        obtain ⟨ns, c'⟩ := p
        rw [hnn] at h
        simp only [] at h
        cases hnc : normalizeConnections ns (getF input "connections") with
        | error e => rw [hnc] at h; simp at h
        | ok q =>
          obtain ⟨connections, warnings⟩ := q
          rw [hnc] at h
          simp only [] at h
          cases hfe : forceExecutionOrder
              (if truthy (getF input "settings") then getF input "settings"
               else defaultSettings) with
          | error e => rw [hfe] at h; simp at h
          | ok settings =>
            rw [hfe] at h
            simp only [] at h
            obtain ⟨sfs, hbase, hset⟩ := forceExecutionOrder_ok hfe
            subst hset
            simp only [Except.ok.injEq] at h
            subst h
            refine ⟨sfs, hbase, ?_, ?_⟩
            · simp [objLookup, lookup_cons]
            · cases input <;> rfl
    | undefined => rw [hraw] at h; simp at h
    | null => rw [hraw] at h; simp at h
    | bool b => rw [hraw] at h; simp at h
    | num n => rw [hraw] at h; simp at h
    | str s => rw [hraw] at h; simp at h
    | obj fs2 => rw [hraw] at h; simp at h


theorem normalizeNode_obj_ok {c : Nat} {fs : List (String × Value)}
    {nn : NormNode} {c2 : Nat}
    (h : normalizeNode c (.obj fs) = .ok (nn, c2)) :
    nn = ⟨(if truthy (getF (.obj fs) "id") then getF (.obj fs) "id"
           else .str (uuidv4 c)),
          (getF (.obj fs) "type").asStr,
          (getF (.obj fs) "name").asStr,
          jsOr (getF (.obj fs) "parameters") (.obj []),
          (if truthy (getF (.obj fs) "position") then getF (.obj fs) "position"
           else .arr [.num DEFAULT_POSITION.x, .num DEFAULT_POSITION.y]),
          getF (.obj fs) "credentials",
          jsOr (getF (.obj fs) "typeVersion") (.num 1),
          jsOr (getF (.obj fs) "disabled") (.bool false),
          getF (.obj fs) "webhookId",
          getF (.obj fs) "continueOnFail",
          getF (.obj fs) "alwaysOutputData",
          getF (.obj fs) "retryOnFail"⟩ := by
  unfold normalizeNode at h
  rw [if_neg (by simp [jsTypeof])] at h
  simp only [getField] at h
  split at h
  · simp at h
  · split at h
    · simp at h
    · simp only [Except.ok.injEq, Prod.mk.injEq] at h
      exact h.1.symm

theorem normalizeNode_fail_nonnull {c : Nat} {e : Value}
    (hnn : e ≠ .null)
    (hbad : ¬ ((getF e "type").isStr = true ∧ (getF e "name").isStr = true)) :
    ∃ m, normalizeNode c e = .error (.invalidInput m) := by
  cases e with
  | null => exact absurd rfl hnn
  | undefined => exact ⟨_, rfl⟩
  | bool b => exact ⟨_, rfl⟩
  | num n => exact ⟨_, rfl⟩
  | str s => exact ⟨_, rfl⟩
  | arr xs => exact ⟨_, rfl⟩
  | obj fs =>
    by_cases ht : (getF (.obj fs) "type").isStr = true
    · by_cases hn : (getF (.obj fs) "name").isStr = true
      · exact absurd ⟨ht, hn⟩ hbad
      · refine ⟨"Node must have a name property", ?_⟩
        unfold normalizeNode
        rw [if_neg (by simp [jsTypeof])]
        simp only [getField]
        rw [if_neg (by simp [ht]), if_pos (by simp [hn])]
    · refine ⟨"Node must have a type property", ?_⟩
      unfold normalizeNode
      rw [if_neg (by simp [jsTypeof])]
      simp only [getField]
      rw [if_pos (by simp [ht])]

theorem normalizeNode_ok_of_good {c : Nat} {e : Value}
    (ht : (getF e "type").isStr = true) (hn : (getF e "name").isStr = true) :
    ∃ nn c', normalizeNode c e = .ok (nn, c') := by
  cases e with
  | obj fs =>
    cases hv : normalizeNode c (.obj fs) with
    | ok p =>
      obtain ⟨nn, c2⟩ := p
      exact ⟨nn, c2, rfl⟩
    | error err =>
      unfold normalizeNode at hv
      rw [if_neg (by simp [jsTypeof])] at hv
      simp only [getField] at hv
      rw [if_neg (by simp [ht]), if_neg (by simp [hn])] at hv
      simp at hv
  | undefined => simp [getF, Value.isStr] at ht
  | null => simp [getF, Value.isStr] at ht
  | bool b => simp [getF, Value.isStr] at ht
  | num n => simp [getF, Value.isStr] at ht
  | str s => simp [getF, Value.isStr] at ht
  | arr xs => simp [getF, Value.isStr] at ht

theorem normalizeNodes_fail (l : List Value) :
    ∀ c, (∀ e ∈ l, e ≠ Value.null) →
    (∃ e ∈ l, ¬ ((getF e "type").isStr = true ∧ (getF e "name").isStr = true)) →
    ∃ m, normalizeNodes c l = .error (.invalidInput m) := by
  induction l with
  | nil => intro c _ hbad; simp at hbad
  | cons e rest ih =>
    intro c hnn hbad
    by_cases hb : (getF e "type").isStr = true ∧ (getF e "name").isStr = true
    · obtain ⟨nn, c', hok⟩ := normalizeNode_ok_of_good (c := c) hb.1 hb.2
      have hbad' : ∃ x ∈ rest,
          ¬ ((getF x "type").isStr = true ∧ (getF x "name").isStr = true) := by
        obtain ⟨x, hx, hxbad⟩ := hbad
        rcases List.mem_cons.mp hx with rfl | hx2
        · exact absurd hb hxbad
        · exact ⟨x, hx2, hxbad⟩
      obtain ⟨m, hm⟩ := ih c' (fun x hx => hnn x (by simp [hx])) hbad'
      refine ⟨m, ?_⟩
      unfold normalizeNodes
      rw [hok]
      simp only []
      rw [hm]
    · obtain ⟨m, hm⟩ := normalizeNode_fail_nonnull (c := c) (hnn e (by simp)) hb
      refine ⟨m, ?_⟩
      unfold normalizeNodes
      rw [hm]

end N8n

namespace N8n

theorem buildConnTable_drop (ns : List NormNode) (pre post : List Value)
    (conn s : Value)
    (hpre : ∀ x ∈ pre, entryWF ns x = true)
    (hpost : ∀ x ∈ post, entryWF ns x = true)
    (hs : getField conn "source" = .ok s) (hts : truthy s = true)
    (htt : truthy (getF conn "target") = true)
    (hu : entryUnresolved ns conn = true) :
    ∃ tbl ws ws',
      buildConnTable ns ([], []) (pre ++ post) = .ok (tbl, ws) ∧
      buildConnTable ns ([], []) (pre ++ conn :: post) = .ok (tbl, ws') ∧
      dropWarning conn ∈ ws' := by
  obtain ⟨t1, d1, hp1, hp2⟩ := buildConnTable_wf ns pre hpre [] []
  obtain ⟨t2, d2, hq1, hq2⟩ := buildConnTable_wf ns post hpost t1 d1
  refine ⟨t2, d1 ++ d2, d1 ++ ([dropWarning conn] ++ d2), ?_, ?_, by simp⟩
  · rw [buildConnTable_append, hp1]
    simpa using hq1
  · rw [buildConnTable_append, hp1]
    show buildConnTable ns (t1, [] ++ d1) (conn :: post) = _
    rw [buildConnTable_cons]
    rw [processConnEntry_unresolved ns t1 ([] ++ d1) conn s hs hts htt hu]
    have hq := hq2 ([] ++ d1 ++ [dropWarning conn])
    rw [show ([] ++ d1 ++ [dropWarning conn]) ++ d2 =
          d1 ++ ([dropWarning conn] ++ d2) from by simp] at hq
    exact hq

/-- C9: `calculateBranchPosition base i n` is
`{x: base.x + 200, y: base.y + (i - floor(n/2)) * 140}`; `addBranches`
with three branches from a source at `y = 240` places them at
y-coordinates 100, 240, 380, and with two branches at offsets −140, 0. -/
theorem C9_branch_positions :
    (∀ (base : Position) (i n : Nat),
      calculateBranchPosition base i n =
        ⟨base.x + 200, base.y + ((i : Int) - ((n / 2 : Nat) : Int)) * 140⟩) ∧
    ((bTrio.1.addBranches bTrio.2.id branchSpecs3).map
        (fun p => p.2.map (fun nd => nd.position)) =
      .ok [.arr [300, 100], .arr [300, 240], .arr [300, 380]]) ∧
    ((bTrio.1.addBranches bTrio.2.id branchSpecs2).map
        (fun p => p.2.map (fun nd => nd.position)) =
      .ok [.arr [300, 100], .arr [300, 240]]) :=
  ⟨fun _ _ _ => rfl, rfl, rfl⟩

/-- C10: `clear()` empties nodes and connections and resets the layout
cursor, while name and settings keep their current values; a cleared
builder exports the previously set name and settings. -/
theorem C10_clear_scope :
    (∀ b : WorkflowBuilder,
      b.clear.nodes = [] ∧ b.clear.connections = [] ∧
      b.clear.nextPosition = DEFAULT_POSITION ∧
      b.clear.workflowName = b.workflowName ∧
      b.clear.workflowSettings = b.workflowSettings) ∧
    (c10builder.clear.exportWorkflow.name = "My Flow" ∧
     c10builder.clear.exportWorkflow.settings =
       ⟨some true, some true, some "all", some "none", none, none,
        some "UTC", some "v1"⟩ ∧
     c10builder.clear.exportWorkflow.nodes = [] ∧
     c10builder.clear.exportWorkflow.connections = [] ∧
     "My Flow" ≠ "New Workflow") :=
  ⟨fun _ => ⟨rfl, rfl, rfl, rfl, rfl⟩, rfl, by decide, rfl, rfl, by decide⟩

/-- C1 (amended): the normalizer's output always carries
`settings.executionOrder = "v1"` regardless of the caller's settings; the
builder's exported settings carry `executionOrder = "v1"` after any
sequence of `setSettings` calls whose partials contain no
`executionOrder` key (but `setSettings` does not re-force the tag, so a
partial carrying one overrides it — see the counterexample). -/
theorem C1_execution_order :
    (∀ (c : Nat) (input : Value) (r : NormResult),
      validateWorkflowSpec c input = .ok r →
      ∃ s, objLookup r.spec "settings" = some s ∧
        objLookup s "executionOrder" = some (.str "v1")) ∧
    (∀ ps : List WorkflowSettings, (∀ p ∈ ps, p.executionOrder = none) →
      ((ps.foldl WorkflowBuilder.setSettings
          WorkflowBuilder.init).exportWorkflow).settings.executionOrder =
        some "v1") := by
  constructor
  · intro c input r h
    obtain ⟨sfs, _, hset, _⟩ := validate_ok_parts h
    exact ⟨_, hset, by simp [objLookup, lookup_setKey_self]⟩
  · have key : ∀ (ps : List WorkflowSettings) (b : WorkflowBuilder),
        (∀ p ∈ ps, p.executionOrder = none) →
        b.workflowSettings.executionOrder = some "v1" →
        (ps.foldl WorkflowBuilder.setSettings
          b).workflowSettings.executionOrder = some "v1" := by
      intro ps
      induction ps with
      | nil => intro b _ hb; exact hb
      | cons p rest ih =>
        intro b hp hb
        rw [List.foldl_cons]
        refine ih _ (fun x hx => hp x (by simp [hx])) ?_
        show (mergeSettings b.workflowSettings p).executionOrder = some "v1"
        unfold mergeSettings
        simp only []
        rw [hp p (by simp)]
        simpa using hb
    exact fun ps hps => key ps WorkflowBuilder.init hps rfl

/-- Witness for C1 at concrete inputs. -/
theorem C1_witness :
    (∃ s, objLookup c1result.spec "settings" = some s ∧
      objLookup s "executionOrder" = some (.str "v1")) ∧
    ((([emptySettings] : List WorkflowSettings).foldl
        WorkflowBuilder.setSettings
        WorkflowBuilder.init).exportWorkflow).settings.executionOrder =
      some "v1" :=
  ⟨C1_execution_order.1 0 c1input c1result rfl,
   C1_execution_order.2 [emptySettings] (by decide)⟩

/-- C1 counterexample: a `setSettings` partial carrying
`executionOrder = "v0"` survives into `exportWorkflow()`, so the claim
"output has executionOrder = 'v1' after any sequence of setSettings
calls" is false. -/
theorem C1_counterexample :
    ((WorkflowBuilder.init.setSettings
        c1partial).exportWorkflow).settings.executionOrder = some "v0" ∧
    ¬ ((WorkflowBuilder.init.setSettings
        c1partial).exportWorkflow).settings.executionOrder = some "v1" :=
  ⟨rfl, by decide⟩

end N8n

namespace N8n

/-- C2: the spec's scenario — nodes `A,B,C`, flat entries `A→B` and
`A→C` at output 1 — yields `{A: {main: [[B-edge],[C-edge]]}}`; in
general a flat entry with resolvable endpoints is appended under the
source node's name at port `sourceOutput || 0` as
`{node: targetName, type:"main", index: targetInput || 0}`, padding the
per-source `main` array to `sourceOutput + 1` entries. -/
theorem C2_flat_array_conversion :
    ((validateWorkflowSpec 0 c2input).map
        (fun r => objLookup r.spec "connections") = .ok (some c2expected)) ∧
    (∀ (ns : List NormNode) (tbl : ConnTable) (ws : List String)
       (conn s : Value) (sn tn : NormNode) (k : Int),
      getField conn "source" = .ok s → truthy s = true →
      truthy (getF conn "target") = true →
      findNodeByRef ns s = some sn →
      findNodeByRef ns (getF conn "target") = some tn →
      jsOr (getF conn "sourceOutput") (.num 0) = .num k → 0 ≤ k →
      processConnEntry ns (tbl, ws) conn =
        .ok (specAppendPort tbl sn.name k.toNat
              ⟨tn.name, jsOr (getF conn "targetInput") (.num 0)⟩, ws)) :=
  ⟨rfl, fun ns tbl ws conn s sn tn k h1 h2 h3 h4 h5 h6 h7 =>
    processConnEntry_resolved ns tbl ws conn s sn tn k h1 h2 h3 h4 h5 h6 h7⟩

/-- Witness for C2's general conjunct at a concrete entry. -/
theorem C2_witness :
    processConnEntry [wNodeA, wNodeB] ([], []) c2conn1 =
      .ok (specAppendPort [] "A" 0 ⟨"B", .num 0⟩, []) :=
  C2_flat_array_conversion.2 [wNodeA, wNodeB] [] [] c2conn1 (.str "A")
    wNodeA wNodeB 0 rfl rfl rfl rfl rfl rfl (by decide)

/-- C5: `connectNodes` fails with the `NotFound`-kind error when either
id matches no node (the state is untouched: no new state is produced);
when both resolve it appends `{node: targetName, type:"main",
index: outputIndex}` under the source's name at port `outputIndex`,
padding the port-array to length at least `outputIndex + 1`. -/
theorem C5_connectNodes :
    (∀ (b : WorkflowBuilder) (s t : String) (i : Nat),
      ((b.nodes.any (fun n => n.id == s)) &&
       (b.nodes.any (fun n => n.id == t))) = false →
      b.connectNodes s t i =
        .error (.notFound
          "Cannot connect nodes: one or both nodes do not exist")) ∧
    (∀ (b : WorkflowBuilder) (s t : String) (i : Nat)
       (sn tn : WorkflowNode),
      b.nodes.find? (fun n => n.id == s) = some sn →
      b.nodes.find? (fun n => n.id == t) = some tn →
      b.connectNodes s t i =
        .ok { b with
              connections := specAppendPort b.connections sn.name i
                ⟨tn.name, i⟩ }) := by
  constructor
  · intro b s t i h
    unfold WorkflowBuilder.connectNodes
    simp only []
    rw [if_pos (by simp [h])]
  · intro b s t i sn tn hfs hft
    have hpreds := List.find?_some hfs
    have hpredt := List.find?_some hft
    have ha : b.nodes.any (fun n => n.id == s) = true :=
      List.any_eq_true.mpr ⟨sn, List.mem_of_find?_eq_some hfs, hpreds⟩
    have hb : b.nodes.any (fun n => n.id == t) = true :=
      List.any_eq_true.mpr ⟨tn, List.mem_of_find?_eq_some hft, hpredt⟩
    unfold WorkflowBuilder.connectNodes
    simp only []
    rw [if_neg (by simp [ha, hb]), hfs, hft]
    simp only []
    have he := appendPort_eq b.connections sn.name i
      (⟨tn.name, i⟩ : NodeConnection)
    simp only [] at he
    rw [he]

/-- Witness for C5 at concrete inputs: a missing source id fails with
`NotFound`; connecting the trigger to the log node appends the edge. -/
theorem C5_witness :
    bLog.1.connectNodes "missing-id" bLog.2.id 0 =
      .error (.notFound
        "Cannot connect nodes: one or both nodes do not exist") ∧
    bLog.1.connectNodes bTrio.2.id bLog.2.id 0 =
      .ok { bLog.1 with
            connections := specAppendPort bLog.1.connections "Start" 0
              ⟨"Log", 0⟩ } :=
  ⟨C5_connectNodes.1 bLog.1 "missing-id" bLog.2.id 0 (by decide),
   C5_connectNodes.2 bLog.1 bTrio.2.id bLog.2.id 0 bTrio.2 bLog.2 rfl rfl⟩

/-- C6 (amended): for each accepted raw node the normalizer assigns a
fresh id, the default position `[100, 240]`, `typeVersion = 1` and
`disabled = false` when those are missing, and passes `parameters`
(when truthy), `credentials`, `webhookId`, `continueOnFail`,
`alwaysOutputData` and `retryOnFail` through unmodified; the output node
object has exactly those twelve keys, so `onError`, `maxTries`,
`waitBetweenTries`, `executeOnce`, `notesInFlow` and `notes` are dropped
rather than passed through (see the counterexample). -/
theorem C6_node_defaults_passthrough :
    ∀ (c : Nat) (fs : List (String × Value)) (nn : NormNode) (c2 : Nat),
      normalizeNode c (.obj fs) = .ok (nn, c2) →
      objKeys nn.toValue =
        ["id", "type", "name", "parameters", "position", "credentials",
         "typeVersion", "disabled", "webhookId", "continueOnFail",
         "alwaysOutputData", "retryOnFail"] ∧
      (truthy (getF (.obj fs) "id") = false → nn.id = .str (uuidv4 c)) ∧
      (truthy (getF (.obj fs) "position") = false →
        nn.position = .arr [.num 100, .num 240]) ∧
      (truthy (getF (.obj fs) "typeVersion") = false →
        nn.typeVersion = .num 1) ∧
      (truthy (getF (.obj fs) "disabled") = false →
        nn.disabled = .bool false) ∧
      (truthy (getF (.obj fs) "parameters") = true →
        nn.parameters = getF (.obj fs) "parameters") ∧
      nn.credentials = getF (.obj fs) "credentials" ∧
      nn.webhookId = getF (.obj fs) "webhookId" ∧
      nn.continueOnFail = getF (.obj fs) "continueOnFail" ∧
      nn.alwaysOutputData = getF (.obj fs) "alwaysOutputData" ∧
      nn.retryOnFail = getF (.obj fs) "retryOnFail" := by
  intro c fs nn c2 h
  have hc := normalizeNode_obj_ok h
  subst hc
  refine ⟨rfl, ?_, ?_, ?_, ?_, ?_, rfl, rfl, rfl, rfl, rfl⟩
  · intro hid; simp [hid]
  · intro hp; simp [hp, DEFAULT_POSITION]
  · intro htv; simp [jsOr, htv]
  · intro hd; simp [jsOr, hd]
  · intro hp; simp [jsOr, hp]

/-- Witness for C6 at a concrete minimal node. -/
theorem C6_witness :
    objKeys c6plainNorm.toValue =
      ["id", "type", "name", "parameters", "position", "credentials",
       "typeVersion", "disabled", "webhookId", "continueOnFail",
       "alwaysOutputData", "retryOnFail"] ∧
    (truthy (getF (.obj c6plainFields) "id") = false →
      c6plainNorm.id = .str (uuidv4 0)) ∧
    (truthy (getF (.obj c6plainFields) "position") = false →
      c6plainNorm.position = .arr [.num 100, .num 240]) ∧
    (truthy (getF (.obj c6plainFields) "typeVersion") = false →
      c6plainNorm.typeVersion = .num 1) ∧
    (truthy (getF (.obj c6plainFields) "disabled") = false →
      c6plainNorm.disabled = .bool false) ∧
    (truthy (getF (.obj c6plainFields) "parameters") = true →
      c6plainNorm.parameters = getF (.obj c6plainFields) "parameters") ∧
    c6plainNorm.credentials = getF (.obj c6plainFields) "credentials" ∧
    c6plainNorm.webhookId = getF (.obj c6plainFields) "webhookId" ∧
    c6plainNorm.continueOnFail = getF (.obj c6plainFields) "continueOnFail" ∧
    c6plainNorm.alwaysOutputData =
      getF (.obj c6plainFields) "alwaysOutputData" ∧
    c6plainNorm.retryOnFail = getF (.obj c6plainFields) "retryOnFail" :=
  C6_node_defaults_passthrough 0 c6plainFields c6plainNorm 1 rfl

/-- C6 counterexample: a node supplying `notes` and `maxTries` loses
both — the output node object carries no such keys, contradicting the
claimed pass-through of every optional field. -/
theorem C6_counterexample :
    (normalizeNode 0 c6node).map
      (fun p => objLookup p.1.toValue "notes") = .ok none ∧
    getF c6node "notes" = .str "remember" ∧
    (normalizeNode 0 c6node).map
      (fun p => objLookup p.1.toValue "maxTries") = .ok none ∧
    getF c6node "maxTries" = .num 3 ∧
    (none : Option Value) ≠ some (.str "remember") :=
  ⟨rfl, rfl, rfl, rfl, fun h => Option.noConfusion h⟩

end N8n

namespace N8n

/-- C7 (corrected, amended): the normalizer leaves its input untouched
when `input.settings` is absent or falsy, but when the caller supplies a
settings object the normalizer writes `executionOrder = "v1"` into that
very object — after the call the input's settings differ from what was
passed (see the counterexample). -/
theorem C7_input_mutation :
    (∀ (c : Nat) (input : Value) (r : NormResult),
      validateWorkflowSpec c input = .ok r →
      truthy (getF input "settings") = false → r.inputAfter = input) ∧
    (∀ (c : Nat) (fs : List (String × Value)) (r : NormResult)
       (sfs : List (String × Value)),
      validateWorkflowSpec c (.obj fs) = .ok r →
      fs.lookup "settings" = some (.obj sfs) →
      r.inputAfter = .obj (setKey fs "settings"
        (.obj (setKey sfs "executionOrder" (.str "v1"))))) := by
  constructor
  · intro c input r h hf
    obtain ⟨sfs, _, _, hafter⟩ := validate_ok_parts h
    rw [hafter, if_neg (by simp [hf])]
  · intro c fs r sfs h hl
    have hgf : getF (Value.obj fs) "settings" = .obj sfs := by
      simp [getF, hl]
    obtain ⟨sfs2, hbase, _, hafter⟩ := validate_ok_parts h
    rw [hgf] at hbase
    rw [if_pos (by simp [truthy])] at hbase
    injection hbase with hb2
    subst hb2
    rw [hafter, hgf, if_pos (by simp [truthy])]

/-- Witness for C7 at concrete inputs: no mutation without caller
settings; the caller's settings object is updated in place when given. -/
theorem C7_witness :
    c1result.inputAfter = c1input ∧
    c7result.inputAfter = .obj (setKey c7fields "settings"
      (.obj (setKey [("executionOrder", .str "v0")] "executionOrder"
        (.str "v1")))) :=
  ⟨C7_input_mutation.1 0 c1input c1result rfl rfl,
   C7_input_mutation.2 0 c7fields c7result
     [("executionOrder", .str "v0")] rfl rfl⟩

/-- C7 counterexample: after normalizing an input whose settings carry
`executionOrder = "v0"`, the input's settings carry `"v1"` — the claim
that the input is never mutated is false. -/
theorem C7_counterexample :
    (validateWorkflowSpec 0 c7input).map
      (fun r => objLookup2 r.inputAfter "settings" "executionOrder") =
      .ok (some (.str "v1")) ∧
    objLookup2 c7input "settings" "executionOrder" = some (.str "v0") ∧
    some (Value.str "v1") ≠ some (Value.str "v0") := by
  refine ⟨rfl, rfl, ?_⟩
  intro h
  injection h with h2
  injection h2 with h3
  exact absurd h3 (by decide)

/-- C3 (corrected, amended): a non-object input, a non-array `nodes`,
and any non-`null` node element lacking a string `type` or `name` all
surface an `InvalidInput`-kind error; a `null` node element, however,
has `typeof null === "object"` and fails by property access instead,
surfacing a `TypeError` rather than `InvalidInput` (see the
counterexample). -/
theorem C3_invalid_input :
    (∀ (c : Nat) (input : Value),
      truthy input = false ∨ jsTypeof input ≠ "object" →
      validateWorkflowSpec c input =
        .error (.invalidInput "Workflow spec must be an object")) ∧
    (∀ (c : Nat) (fs : List (String × Value)),
      isArray (getF (.obj fs) "nodes") = false →
      validateWorkflowSpec c (.obj fs) =
        .error (.invalidInput "Workflow nodes must be an array")) ∧
    (∀ (c : Nat) (fs : List (String × Value)) (rawNodes : List Value),
      getF (.obj fs) "nodes" = .arr rawNodes →
      (∀ e ∈ rawNodes, e ≠ .null) →
      (∃ e ∈ rawNodes, ¬ ((getF e "type").isStr = true ∧
        (getF e "name").isStr = true)) →
      ∃ m, validateWorkflowSpec c (.obj fs) =
        .error (.invalidInput m)) := by
  refine ⟨?_, ?_, ?_⟩
  · intro c input h
    unfold validateWorkflowSpec
    rw [if_pos ?_]
    rcases h with h | h
    · exact Or.inl (by simp [h])
    · exact Or.inr h
  · intro c fs h
    unfold validateWorkflowSpec
    rw [if_neg (by simp [truthy, jsTypeof])]
    cases hv : getF (.obj fs) "nodes" with
    | arr xs => rw [hv] at h; simp [isArray] at h
    | undefined => rfl
    | null => rfl
    | bool b => rfl
    | num n => rfl
    | str s => rfl
    | obj fs2 => rfl
  · intro c fs rawNodes hraw hnn hbad
    obtain ⟨m, hm⟩ := normalizeNodes_fail rawNodes c hnn hbad
    refine ⟨m, ?_⟩
    unfold validateWorkflowSpec
    rw [if_neg (by simp [truthy, jsTypeof]), hraw]
    simp only []
    rw [hm]

/-- Witness for C3 at concrete inputs. -/
theorem C3_witness :
    validateWorkflowSpec 0 .null =
      .error (.invalidInput "Workflow spec must be an object") ∧
    validateWorkflowSpec 0 (.obj []) =
      .error (.invalidInput "Workflow nodes must be an array") ∧
    (∃ m, validateWorkflowSpec 0 (.obj [("nodes", .arr [.num 7])]) =
      .error (.invalidInput m)) :=
  ⟨C3_invalid_input.1 0 .null (Or.inl rfl),
   C3_invalid_input.2.1 0 [] rfl,
   C3_invalid_input.2.2 0 [("nodes", .arr [.num 7])] [.num 7] rfl
     (fun e he => by
       rcases List.mem_singleton.mp he with rfl
       exact fun hc => Value.noConfusion hc)
     ⟨.num 7, by simp, by intro hc; exact absurd hc.1 (by decide)⟩⟩

/-- C3 counterexample: a `null` node element surfaces a `TypeError`, not
an `InvalidInput`-kind error, contradicting "in every such case the
error surfaced to the caller is the InvalidInput kind". -/
theorem C3_counterexample :
    validateWorkflowSpec 0 c3input = .error .typeError ∧
    isInvalidInputError (validateWorkflowSpec 0 c3input) = false :=
  ⟨rfl, rfl⟩

/-- C4: a flat entry whose source or target resolves to no node (by id
or name) is dropped with a `console.warn` diagnostic and is non-fatal:
the table built from the remaining (well-formed) entries is unchanged by
the dropped entry's presence, a normalization whose entries are all
well-formed succeeds, and the concrete scenario --- one unresolvable and
one resolvable entry --- returns the table of the resolvable entry plus
one warning without throwing. -/
theorem C4_unresolved_dropped :
    (∀ (ns : List NormNode) (pre post : List Value) (conn s : Value),
      (∀ x ∈ pre, entryWF ns x = true) →
      (∀ x ∈ post, entryWF ns x = true) →
      getField conn "source" = .ok s → truthy s = true →
      truthy (getF conn "target") = true →
      entryUnresolved ns conn = true →
      ∃ tbl ws ws',
        buildConnTable ns ([], []) (pre ++ post) = .ok (tbl, ws) ∧
        buildConnTable ns ([], []) (pre ++ conn :: post) = .ok (tbl, ws') ∧
        dropWarning conn ∈ ws') ∧
    (∀ (c : Nat) (fs : List (String × Value)) (rawNodes : List Value)
       (ns : List NormNode) (c' : Nat) (es : List Value),
      getF (.obj fs) "nodes" = .arr rawNodes →
      normalizeNodes c rawNodes = .ok (ns, c') →
      getF (.obj fs) "connections" = .arr es →
      (∀ e ∈ es, entryWF ns e = true) →
      (∃ st, forceExecutionOrder
        (if truthy (getF (.obj fs) "settings") then getF (.obj fs) "settings"
         else defaultSettings) = .ok st) →
      ∃ r, validateWorkflowSpec c (.obj fs) = .ok r) ∧
    ((validateWorkflowSpec 0 c4input).map
        (fun r => (objLookup r.spec "connections", r.warnings)) =
      .ok (some c4expected, [dropWarning c4badEntry])) := by
  refine ⟨?_, ?_, rfl⟩
  · intro ns pre post conn s hpre hpost hs hts htt hu
    exact buildConnTable_drop ns pre post conn s hpre hpost hs hts htt hu
  · intro c fs rawNodes ns c' es hraw hnn hconn hwf hst
    obtain ⟨st, hstv⟩ := hst
    obtain ⟨tbl, d, hbt, _⟩ := buildConnTable_wf ns es hwf [] []
    have hv : validateWorkflowSpec c (.obj fs) = .ok
        ⟨Value.obj
          [("name", jsOr (getF (Value.obj fs) "name") (.str "New Workflow")),
           ("nodes", .arr (ns.map NormNode.toValue)),
           ("connections", ConnTable.toValue tbl),
           ("settings", st)],
         (if truthy (getF (Value.obj fs) "settings") then
           Value.obj (setKey fs "settings" st) else Value.obj fs),
         d⟩ := by
      unfold validateWorkflowSpec
      rw [if_neg (by simp [truthy, jsTypeof]), hraw]
      simp only []
      rw [hnn]
      simp only []
      have hnc : normalizeConnections ns (getF (Value.obj fs) "connections") =
          .ok (ConnTable.toValue tbl, d) := by
        rw [hconn]
        unfold normalizeConnections
        rw [if_neg (by simp [truthy]), if_neg (by simp [isArray])]
        simp only []
        rw [hbt]
        simp
      rw [hnc]
      simp only []
      rw [hstv]
    exact ⟨_, hv⟩

/-- Witness for C4 at the concrete scenario data. -/
theorem C4_witness :
    (∃ tbl ws ws',
      buildConnTable [wNodeA, wNodeB] ([], []) ([] ++ [c4goodEntry]) =
        .ok (tbl, ws) ∧
      buildConnTable [wNodeA, wNodeB] ([], [])
          ([] ++ c4badEntry :: [c4goodEntry]) = .ok (tbl, ws') ∧
      dropWarning c4badEntry ∈ ws') ∧
    (∃ r, validateWorkflowSpec 0 (.obj c4fields) = .ok r) :=
  ⟨C4_unresolved_dropped.1 [wNodeA, wNodeB] [] [c4goodEntry] c4badEntry
      (.str "A")
      (fun x hx => absurd hx (List.not_mem_nil x))
      (fun x hx => by rcases List.mem_singleton.mp hx with rfl; decide)
      rfl rfl rfl (by decide),
   C4_unresolved_dropped.2.1 0 c4fields c4rawNodes [wNodeA, wNodeB] 2
      [c4badEntry, c4goodEntry] rfl rfl rfl
      (fun e he => by
        rcases List.mem_cons.mp he with rfl | he2
        · decide
        · rcases List.mem_singleton.mp he2 with rfl; decide)
      ⟨_, rfl⟩⟩

/-- C8 (corrected, amended): for a direct-array `main` with nonempty
node list, the older normalizer attaches the whole array under one node
chosen by a single pass over the nodes testing the disjunction
`name == "Start" or name == "Trigger" or type contains "trigger"`, with
the first node as fallback — there is no preference of literal names
over trigger-typed nodes (see the counterexample). -/
theorem C8_implicit_source :
    ∀ (c : Nat) (fs : List (String × Value)) (rawNodes : List Value)
      (ns : List NormNode) (c' : Nat) (cv : Value) (es : List Value),
      getF (.obj fs) "nodes" = .arr rawNodes →
      normalizeNodes c rawNodes = .ok (ns, c') →
      getF (.obj fs) "connections" = cv →
      truthy cv = true →
      getF cv "main" = .arr es →
      es ≠ [] → ns ≠ [] →
      (∃ st, forceExecutionOrder
        (if truthy (getF (.obj fs) "settings") then getF (.obj fs) "settings"
         else defaultSettings) = .ok st) →
      ∃ chosen spec,
        (ns.find? (fun n => n.name == "Start" || n.name == "Trigger" ||
            includesSub n.type "trigger") = some chosen ∨
         (ns.find? (fun n => n.name == "Start" || n.name == "Trigger" ||
            includesSub n.type "trigger") = none ∧
          ns.head? = some chosen)) ∧
        validateWorkflowSpec2 c (.obj fs) = .ok spec ∧
        objLookup spec "connections" =
          some (.obj [("main", .obj [(chosen.name, .arr es)])]) := by
  intro c fs rawNodes ns c' cv es hraw hnn hcv htr hmain hes hns hst
  obtain ⟨st, hstv⟩ := hst
  have hcs : ∃ chosen, chooseImplicitSource ns = some chosen ∧
      (ns.find? (fun n => n.name == "Start" || n.name == "Trigger" ||
          includesSub n.type "trigger") = some chosen ∨
       (ns.find? (fun n => n.name == "Start" || n.name == "Trigger" ||
          includesSub n.type "trigger") = none ∧
        ns.head? = some chosen)) := by
    unfold chooseImplicitSource
    cases hf : ns.find? (fun n => n.name == "Start" || n.name == "Trigger" ||
        includesSub n.type "trigger") with
    | some n => exact ⟨n, rfl, Or.inl rfl⟩
    | none =>
      cases ns with
      | nil => exact absurd rfl hns
      | cons a as => exact ⟨a, rfl, Or.inr ⟨rfl, rfl⟩⟩
  obtain ⟨chosen, hchoose, hdisj⟩ := hcs
  refine ⟨chosen, Value.obj
    [("name", jsOr (getF (Value.obj fs) "name") (.str "New Workflow")),
     ("nodes", .arr (ns.map NormNode.toValue)),
     ("connections", .obj [("main", .obj [(chosen.name, .arr es)])]),
     ("settings", st)], hdisj, ?_, ?_⟩
  · unfold validateWorkflowSpec2
    rw [if_neg (by simp [truthy, jsTypeof]), hraw]
    simp only []
    rw [hnn]
    simp only []
    have hshape : connShape2 ns (getF (Value.obj fs) "connections") =
        .ok (cv, true) := by
      rw [hcv]
      unfold connShape2
      rw [if_neg (by simp [htr]), hmain]
      rw [if_pos (by simp [truthy, isArray])]
    rw [hshape]
    simp only []
    rw [hstv]
    simp only []
    rw [hmain]
    rw [if_pos (by simp [truthy, isArray])]
    simp only []
    rw [if_pos ⟨List.length_pos.mpr hes, List.length_pos.mpr hns⟩]
    rw [hchoose]
  · simp [objLookup, lookup_cons]

/-- Witness for C8 at the concrete scenario data. -/
theorem C8_witness :
    ∃ chosen spec,
      (([nT1, nStart].find? (fun n => n.name == "Start" ||
          n.name == "Trigger" || includesSub n.type "trigger") =
            some chosen ∨
        ([nT1, nStart].find? (fun n => n.name == "Start" ||
          n.name == "Trigger" || includesSub n.type "trigger") = none ∧
         ([nT1, nStart] : List NormNode).head? = some chosen))) ∧
      validateWorkflowSpec2 0 (.obj c8fields) = .ok spec ∧
      objLookup spec "connections" =
        some (.obj [("main", .obj [(chosen.name, .arr [c8edge])])]) :=
  C8_implicit_source 0 c8fields c8rawNodes [nT1, nStart] 2
    (.obj [("main", .arr [c8edge])]) [c8edge] rfl rfl rfl rfl rfl
    (by simp) (by simp) ⟨_, rfl⟩

/-- C8 counterexample: with a trigger-typed node first and a node
literally named "Start" second, the array is attached under the first
(type-matched) node, not under "Start" — the claimed preference order
(literal names first) does not hold. -/
theorem C8_counterexample :
    (validateWorkflowSpec2 0 c8input).map
      (fun spec => (objLookup2 spec "connections" "main").map objKeys) =
      .ok (some ["T1"]) ∧
    "T1" ≠ "Start" :=
  ⟨rfl, by decide⟩

end N8n
